import Mathlib

/-!
Verification of the lazy, paginated, dual-tier entry cache and remote-resolution
protocol of `intake/catalog/remote.py` (classes `RemoteCatalog`, `Entries`,
`RemoteCatalogEntry` and the function `open_remote`).

The embedding is shallow: Python dicts become association lists over `String`
keys (insertion-ordered, first-match lookup, in-place replacement on update —
exactly the observable behaviour of `dict`/`OrderedDict`), the stateful cache
becomes explicit state passing, and the generator `Entries.__iter__` becomes a
fuel-bounded loop returning the yielded keys together with the successor state
and the number of `fetch_page` calls it made.  Remote responses are passed to
each operation as explicit data.
-/

namespace Intake

/-! ## Python dictionaries as ordered association lists -/

/-- First-match lookup in an association list; models `d[k]` / `d.get(k)`. -/
def lookupAssoc {α : Type} : List (String × α) → String → Option α
  | [], _ => none
  | (k, v) :: rest, key => if k = key then some v else lookupAssoc rest key

/-- Single-key store, `d[k] = v`: replace in place if the key is present
(keeping its position, as Python dicts do), otherwise append. -/
def dictInsert {α : Type} (d : List (String × α)) (kv : String × α) : List (String × α) :=
  if kv.1 ∈ d.map Prod.fst then
    d.map (fun p => if p.1 = kv.1 then (p.1, kv.2) else p)
  else d ++ [kv]

/-- Models Python `d.update(u)`: store every pair of `u` into `d` in order. -/
def dictUpdate {α : Type} (d u : List (String × α)) : List (String × α) :=
  u.foldl dictInsert d

theorem lookupAssoc_eq_none {α : Type} (d : List (String × α)) (key : String) :
    lookupAssoc d key = none ↔ key ∉ d.map Prod.fst := by
  induction d with
  | nil => simp [lookupAssoc]
  | cons hd tl ih =>
    constructor
    · intro h hmem
      by_cases hh : hd.1 = key
      · simp [lookupAssoc, hh] at h
      · have htl : lookupAssoc tl key = none := by simpa [lookupAssoc, hh] using h
        rw [List.map_cons] at hmem
        rcases List.mem_cons.mp hmem with h1 | h2
        · exact hh h1.symm
        · exact (ih.mp htl) h2
    · intro h
      have hh : ¬ hd.1 = key := by
        intro hc; exact h (by simp [hc])
      have htl : key ∉ tl.map Prod.fst := by
        intro hc; exact h (by simp [hc])
      simp [lookupAssoc, hh, ih.mpr htl]

theorem lookupAssoc_append {α : Type} (d e : List (String × α)) (key : String) :
    lookupAssoc (d ++ e) key =
      match lookupAssoc d key with
      | some v => some v
      | none => lookupAssoc e key := by
  induction d with
  | nil => simp [lookupAssoc]
  | cons hd tl ih =>
    by_cases h : hd.1 = key
    · simp [lookupAssoc, h]
    · simpa [lookupAssoc, h] using ih

theorem lookupAssoc_map_replace {α : Type} (d : List (String × α)) (k key : String) (v : α) :
    lookupAssoc (d.map (fun p => if p.1 = k then (p.1, v) else p)) key =
      if key = k then (lookupAssoc d k).map (fun _ => v) else lookupAssoc d key := by
  induction d with
  | nil => by_cases hk : key = k <;> simp [lookupAssoc, hk]
  | cons hd tl ih =>
    simp only [List.map_cons]
    by_cases hhd : hd.1 = k
    · rw [if_pos hhd]
      by_cases hk : key = k
      · have hdkey : hd.1 = key := by rw [hhd, hk]
        show (if hd.1 = key then some v else _) = _
        rw [if_pos hdkey, if_pos hk]
        show _ = Option.map _ (if hd.1 = k then some hd.2 else lookupAssoc tl k)
        rw [if_pos hhd]
        rfl
      · have hdkey : ¬ hd.1 = key := by
          intro hc; exact hk (by rw [← hc, hhd])
        show (if hd.1 = key then some v else lookupAssoc _ key) = _
        rw [if_neg hdkey, ih, if_neg hk, if_neg hk]
        show _ = (if hd.1 = key then some hd.2 else lookupAssoc tl key)
        rw [if_neg hdkey]
    · rw [if_neg hhd]
      by_cases hdkey : hd.1 = key
      · have hk : ¬ key = k := by
          intro hc; exact hhd (by rw [hdkey, hc])
        show (if hd.1 = key then some hd.2 else _) = _
        rw [if_pos hdkey, if_neg hk]
        show _ = (if hd.1 = key then some hd.2 else lookupAssoc tl key)
        rw [if_pos hdkey]
      · show (if hd.1 = key then some hd.2 else lookupAssoc _ key) = _
        rw [if_neg hdkey, ih]
        by_cases hk : key = k
        · rw [if_pos hk, if_pos hk]
          show _ = Option.map _ (if hd.1 = k then some hd.2 else lookupAssoc tl k)
          rw [if_neg (by rw [← hk]; exact hdkey)]
        · rw [if_neg hk, if_neg hk]
          show _ = (if hd.1 = key then some hd.2 else lookupAssoc tl key)
          rw [if_neg hdkey]

theorem lookupAssoc_dictInsert {α : Type} (d : List (String × α)) (k key : String) (v : α) :
    lookupAssoc (dictInsert d (k, v)) key =
      if key = k then some v else lookupAssoc d key := by
  unfold dictInsert
  by_cases hmem : k ∈ d.map Prod.fst
  · rw [if_pos hmem, lookupAssoc_map_replace]
    by_cases hk : key = k
    · rw [if_pos hk, if_pos hk]
      obtain ⟨w, hw⟩ : ∃ w, lookupAssoc d k = some w := by
        cases hcase : lookupAssoc d k with
        | some w => exact ⟨w, rfl⟩
        | none => exact absurd ((lookupAssoc_eq_none d k).mp hcase) (by simpa using hmem)
      rw [hw]; rfl
    · rw [if_neg hk, if_neg hk]
  · rw [if_neg hmem, lookupAssoc_append]
    by_cases hk : key = k
    · have hnone : lookupAssoc d key = none := by
        rw [lookupAssoc_eq_none, hk]; exact hmem
      rw [hnone, if_pos hk]
      show (if k = key then some v else none) = some v
      rw [if_pos hk.symm]
    · rw [if_neg hk]
      cases hcase : lookupAssoc d key with
      | some w => rfl
      | none =>
        show lookupAssoc [(k, v)] key = none
        show (if k = key then some v else lookupAssoc ([] : List (String × α)) key) = none
        rw [if_neg (fun hc : k = key => hk hc.symm)]
        rfl

theorem lookupAssoc_dictUpdate_of_none {α : Type} (u : List (String × α)) :
    ∀ d : List (String × α), ∀ key : String, lookupAssoc u key = none →
      lookupAssoc (dictUpdate d u) key = lookupAssoc d key := by
  induction u with
  | nil => intro d key _; rfl
  | cons hd tl ih =>
    intro d key h
    have hne : ¬ hd.1 = key := by
      intro hc
      simp [lookupAssoc, hc] at h
    have htl : lookupAssoc tl key = none := by
      simpa [lookupAssoc, hne] using h
    show lookupAssoc (dictUpdate (dictInsert d hd) tl) key = lookupAssoc d key
    rw [ih _ _ htl]
    rw [show hd = (hd.1, hd.2) from rfl, lookupAssoc_dictInsert]
    rw [if_neg (fun hc : key = hd.1 => hne hc.symm)]

theorem lookupAssoc_dictUpdate_of_some {α : Type} (u : List (String × α)) :
    ∀ d : List (String × α), ∀ key : String, ∀ v : α,
      (u.map Prod.fst).Nodup → lookupAssoc u key = some v →
      lookupAssoc (dictUpdate d u) key = some v := by
  induction u with
  | nil => intro d key v _ h; simp [lookupAssoc] at h
  | cons hd tl ih =>
    intro d key v hnd h
    rw [List.map_cons, List.nodup_cons] at hnd
    obtain ⟨hhead, htail⟩ := hnd
    by_cases hk : hd.1 = key
    · have hv : hd.2 = v := by
        have := h
        simp [lookupAssoc, hk] at this
        exact this
      have hnot : key ∉ tl.map Prod.fst := by rw [← hk]; exact hhead
      have htl : lookupAssoc tl key = none := (lookupAssoc_eq_none tl key).mpr hnot
      show lookupAssoc (dictUpdate (dictInsert d hd) tl) key = some v
      rw [lookupAssoc_dictUpdate_of_none tl _ _ htl]
      rw [show hd = (hd.1, hd.2) from rfl, lookupAssoc_dictInsert]
      rw [if_pos hk.symm, hv]
    · have htl : lookupAssoc tl key = some v := by
        simpa [lookupAssoc, hk] using h
      exact ih (dictInsert d hd) key v htail htl

theorem dictInsert_of_not_mem {α : Type} (d : List (String × α)) (kv : String × α)
    (h : kv.1 ∉ d.map Prod.fst) : dictInsert d kv = d ++ [kv] := by
  unfold dictInsert
  rw [if_neg h]

theorem dictUpdate_of_disjoint {α : Type} (u : List (String × α)) :
    ∀ d : List (String × α), (∀ k ∈ u.map Prod.fst, k ∉ d.map Prod.fst) →
      (u.map Prod.fst).Nodup → dictUpdate d u = d ++ u := by
  induction u with
  | nil => intro d _ _; simp [dictUpdate]
  | cons hd tl ih =>
    intro d hdisj hnd
    rw [List.map_cons, List.nodup_cons] at hnd
    obtain ⟨hhead, htail⟩ := hnd
    have hhd : hd.1 ∉ d.map Prod.fst := hdisj hd.1 (by simp)
    have step : dictUpdate d (hd :: tl) = dictUpdate (d ++ [hd]) tl := by
      show dictUpdate (dictInsert d hd) tl = dictUpdate (d ++ [hd]) tl
      rw [dictInsert_of_not_mem d hd hhd]
    rw [step, ih (d ++ [hd])]
    · simp
    · intro k hk
      have hkd : k ∉ d.map Prod.fst := hdisj k (by simp [hk])
      have hkhd : k ≠ hd.1 := by
        intro hc
        exact hhead (hc ▸ hk)
      simp [hkd, hkhd]
    · exact htail

theorem dictUpdate_nil_right {α : Type} (d : List (String × α)) : dictUpdate d [] = d := rfl

theorem dictUpdate_nil_left_of_nodup {α : Type} (u : List (String × α))
    (hnd : (u.map Prod.fst).Nodup) : dictUpdate [] u = u := by
  simpa using dictUpdate_of_disjoint u [] (by simp) hnd

/-! ## The two-tier entry cache (`class Entries` and the cache-facing part of
`class RemoteCatalog`)

Entry payloads (decoded `RemoteCatalogEntry` records) flow through the cache
opaquely; they are modelled by `Nat` identifiers.  The fields `lastPageShort`
and `inlineForced` are ghost observations added for stating history-dependent
invariants: `lastPageShort` records, after each `fetch_page` performed by
`__iter__`, whether that page had fewer entries than the requested page size;
`inlineForced` records that the latest `_load` ingested a non-empty inline
`sources` list while a page size had been requested.  Neither ghost field is
read by any operation. -/

/-- State of the `Entries` mapping (`remote.py`, class `Entries`). -/
structure Entries where
  page_cache : List (String × Nat)
  direct_lookup_cache : List (String × Nat)
  page_offset : Nat
  complete : Bool
  lastPageShort : Option Bool
  inlineForced : Bool
deriving DecidableEq

/-- Cache-facing state of a `RemoteCatalog`: the `_page_size` and `_len`
attributes together with the owned `Entries` container.  (Connection state —
url, headers, auth — is modelled separately below; in the source it is
disjoint from this state and no operation reads one side to update the
other, except that both sides share `_page_size`, which each model carries.) -/
structure RemoteCatalog where
  page_size : Option Nat
  lenCached : Option Nat
  entries : Entries
deriving DecidableEq

/-- Models `Entries.__init__`: empty tiers, offset 0,
`complete = (page_size is None)`; ghost fields cleared. -/
def initEntries (ps : Option Nat) : Entries :=
  { page_cache := [], direct_lookup_cache := [], page_offset := 0,
    complete := ps.isNone, lastPageShort := none, inlineForced := false }

/-- Models `RemoteCatalog.__init__` as far as the cache is concerned
(`self._page_size = page_size; self._len = None`, `Entries(self)`). -/
def initCatalog (ps : Option Nat) : RemoteCatalog :=
  { page_size := ps, lenCached := none, entries := initEntries ps }

/-- Models `Entries.reset`: clear both tiers and the offset,
`complete = (page_size is None)`. -/
def resetOp (c : RemoteCatalog) : RemoteCatalog :=
  { c with entries := initEntries c.page_size }

/-- The data of a successful (2xx) `/v1/info` metadata response that `_load`
consumes: the optional declared `length` and the inline `sources` list
(keyed by entry name, carrying the decoded payload). -/
structure LoadResponse where
  length? : Option Nat
  sources : List (String × Nat)
deriving DecidableEq

/-- Models the success path of `RemoteCatalog._load`: store the declared
length, reset the entry cache, and — if `info['sources']` is non-empty —
force pagination off (`self._page_size = None`) and ingest the inline entries
into the page tier (`self._entries._page_cache.update(...)`).  NOTE the
source order: `reset()` runs while `_page_size` still holds its old value,
so `complete` is recomputed against the OLD page size. -/
def loadOp (c : RemoteCatalog) (resp : LoadResponse) : RemoteCatalog :=
  let c1 : RemoteCatalog := { c with lenCached := resp.length? }
  let c2 := resetOp c1
  if resp.sources.isEmpty then c2
  else
    { c2 with
      page_size := none,
      entries := { c2.entries with
        page_cache := dictUpdate c2.entries.page_cache resp.sources,
        inlineForced := !c.page_size.isNone } }

/-- Models `RemoteCatalog.fetch_page` against a server holding the ordered
entry list `srv`: the page is the dict built from the slice
`srv[page_offset : page_offset + n]`. -/
def fetch_page (srv : List (String × Nat)) (n : Nat) (off : Nat) : List (String × Nat) :=
  dictUpdate [] ((srv.drop off).take n)

/-- The `while True` loop of `Entries.__iter__`, fuel-bounded (the source
loop does not terminate when `page_size = 0`; fuel exhaustion returns
`none`).  Returns `(yielded keys, page cache, page offset, fetch count)`.
Each pass fetches the page at the current offset, merges it into the page
cache, advances the offset by the page length, yields the page's keys, and
breaks exactly when the page is short (fewer entries than `n`). -/
def iterLoop (srv : List (String × Nat)) (n : Nat) :
    Nat → List (String × Nat) → Nat → Option (List String × List (String × Nat) × Nat × Nat)
  | 0, _, _ => none
  | fuel + 1, cache, off =>
    if (fetch_page srv n off).length < n then
      some ((fetch_page srv n off).map Prod.fst,
            dictUpdate cache (fetch_page srv n off),
            off + (fetch_page srv n off).length, 1)
    else
      match iterLoop srv n fuel (dictUpdate cache (fetch_page srv n off))
              (off + (fetch_page srv n off).length) with
      | none => none
      | some (ys, cache3, off3, k) =>
          some ((fetch_page srv n off).map Prod.fst ++ ys, cache3, off3, k + 1)

/-- Result of one full run of `Entries.__iter__`: keys yielded in order, the
catalog state afterwards, and how many `fetch_page` requests were issued. -/
structure IterOut where
  yielded : List String
  cat : RemoteCatalog
  fetches : Nat
deriving DecidableEq

/-- Models draining `Entries.__iter__` once: yield every key already in the
page tier, stop there if not paginating, otherwise run the fetch loop from
the stored offset.  The loop's only exit is its short-page break, which sets
`complete = True` (ghost: and records that the last fetched page was short).
Fuel `srv.length + 1` suffices whenever the requested page size is
positive. -/
def iterate (c : RemoteCatalog) (srv : List (String × Nat)) : Option IterOut :=
  match c.page_size with
  | none => some ⟨c.entries.page_cache.map Prod.fst, c, 0⟩
  | some n =>
    match iterLoop srv n (srv.length + 1) c.entries.page_cache c.entries.page_offset with
    | none => none
    | some (ys, cache2, off2, k) =>
      some ⟨c.entries.page_cache.map Prod.fst ++ ys,
            { c with entries := { c.entries with
                page_cache := cache2, page_offset := off2,
                complete := true, lastPageShort := some true } }, k⟩

/-- Outcome of the single-entry `GET /v1/source?name=...` that
`RemoteCatalog.fetch_by_name` performs. -/
inductive FetchByName where
  | found (entry : Nat)
  | notFound
  | httpError (status : Nat)
deriving DecidableEq

/-- Errors surfaced by `Entries.__getitem__` (`KeyError` on 404, otherwise
`RemoteCatalogError` chained from the transport failure). -/
inductive LookupErr where
  | keyError (name : String)
  | remoteCatalogError (msg : String)
deriving DecidableEq

/-- Models `Entries.__getitem__`: try `_direct_lookup_cache`, then
`_page_cache`, then `fetch_by_name`; a fetched entry is stored in the direct
tier; a 404 raises `KeyError(name)` (uncaught); any other non-2xx raises
`RemoteCatalogError`.  Returns the outcome together with the catalog state
after the call. -/
def getitemOp (c : RemoteCatalog) (key : String) (sr : FetchByName) :
    Except LookupErr Nat × RemoteCatalog :=
  match lookupAssoc c.entries.direct_lookup_cache key with
  | some v => (Except.ok v, c)
  | none =>
    match lookupAssoc c.entries.page_cache key with
    | some v => (Except.ok v, c)
    | none =>
      match sr with
      | FetchByName.found e =>
          (Except.ok e,
           { c with entries := { c.entries with
               direct_lookup_cache := dictInsert c.entries.direct_lookup_cache (key, e) } })
      | FetchByName.notFound => (Except.error (LookupErr.keyError key), c)
      | FetchByName.httpError _ =>
          (Except.error (LookupErr.remoteCatalogError
            ("Failed to fetch entry '" ++ key ++ "'.")), c)

/-- One observable cache operation, with the remote responses it consumes
given as data: `reset`, a successful metadata (re)load, one full drain of
`__iter__`, or one `__getitem__`. -/
inductive Step : RemoteCatalog → RemoteCatalog → Prop where
  | reset (c : RemoteCatalog) : Step c (resetOp c)
  | load (c : RemoteCatalog) (resp : LoadResponse) : Step c (loadOp c resp)
  | iter (c : RemoteCatalog) (srv : List (String × Nat)) (r : IterOut) :
      iterate c srv = some r → Step c r.cat
  | lookup (c : RemoteCatalog) (key : String) (sr : FetchByName) :
      Step c (getitemOp c key sr).2

/-- Reachability along any finite sequence of cache operations. -/
inductive Reaches : RemoteCatalog → RemoteCatalog → Prop where
  | refl (c : RemoteCatalog) : Reaches c c
  | tail (a b c : RemoteCatalog) : Reaches a b → Step b c → Reaches a c

/-! ### Behaviour of the iteration loop -/

theorem fetch_page_of_nodup (srv : List (String × Nat)) (n off : Nat)
    (hnd : (srv.map Prod.fst).Nodup) :
    fetch_page srv n off = (srv.drop off).take n := by
  unfold fetch_page
  apply dictUpdate_nil_left_of_nodup
  have hsub : List.Sublist (((srv.drop off).take n).map Prod.fst) (srv.map Prod.fst) :=
    List.Sublist.map Prod.fst ((List.take_sublist _ _).trans (List.drop_sublist _ _))
  exact hnd.sublist hsub

theorem iterLoop_at_end (srv : List (String × Nat)) (n : Nat) (hn : 0 < n)
    (fuel : Nat) (cache : List (String × Nat)) :
    iterLoop srv n (fuel + 1) cache srv.length = some ([], cache, srv.length, 1) := by
  have hpage : fetch_page srv n srv.length = [] := by
    unfold fetch_page
    rw [List.drop_length, List.take_nil]
    rfl
  show (if (fetch_page srv n srv.length).length < n then _ else _) = _
  rw [hpage]
  simp [hn]
  rfl

theorem iterLoop_fresh (srv : List (String × Nat)) (n : Nat) (hn : 0 < n)
    (hnd : (srv.map Prod.fst).Nodup) :
    ∀ fuel off, off ≤ srv.length → srv.length - off < fuel →
      ∃ k, 1 ≤ k ∧ iterLoop srv n fuel (srv.take off) off =
        some ((srv.drop off).map Prod.fst, srv, srv.length, k) := by
  intro fuel
  induction fuel with
  | zero =>
    intro off _ hfuel
    omega
  | succ fuel ih =>
    intro off hoff hfuel
    have hpage : fetch_page srv n off = (srv.drop off).take n :=
      fetch_page_of_nodup srv n off hnd
    have hlen : ((srv.drop off).take n).length = min n (srv.length - off) := by
      simp [List.length_take, List.length_drop]
    have hsplit : srv.map Prod.fst = (srv.take off).map Prod.fst ++ (srv.drop off).map Prod.fst := by
      rw [← List.map_append, List.take_append_drop]
    have hnd2 : ((srv.take off).map Prod.fst).Nodup ∧
        ∀ a ∈ (srv.take off).map Prod.fst, a ∉ (srv.drop off).map Prod.fst := by
      rw [hsplit] at hnd
      exact ⟨(List.nodup_append.mp hnd).1, (List.nodup_append.mp hnd).2.2⟩
    have hdisj : ∀ kk ∈ ((srv.drop off).take n).map Prod.fst,
        kk ∉ (srv.take off).map Prod.fst := by
      intro kk hkk hmem
      have hsubs : kk ∈ (srv.drop off).map Prod.fst :=
        (List.Sublist.map Prod.fst (List.take_sublist _ _)).mem hkk
      exact hnd2.2 kk hmem hsubs
    have hslnd : (((srv.drop off).take n).map Prod.fst).Nodup :=
      hnd.sublist (List.Sublist.map Prod.fst ((List.take_sublist _ _).trans (List.drop_sublist _ _)))
    have hcache : dictUpdate (srv.take off) ((srv.drop off).take n) =
        srv.take off ++ (srv.drop off).take n :=
      dictUpdate_of_disjoint _ _ hdisj hslnd
    by_cases hshort : ((srv.drop off).take n).length < n
    · have hlt : srv.length - off < n := by omega
      have hall : (srv.drop off).take n = srv.drop off := by
        apply List.take_of_length_le
        rw [List.length_drop]
        omega
      refine ⟨1, le_refl 1, ?_⟩
      show (if (fetch_page srv n off).length < n then _ else _) = _
      rw [hpage, if_pos hshort, hcache, hall, List.take_append_drop]
      have hoff2 : off + (srv.drop off).length = srv.length := by
        rw [List.length_drop]; omega
      rw [hoff2]
    · have hfull : ((srv.drop off).take n).length = n := by omega
      have hn_le : n ≤ srv.length - off := by omega
      have hoff2 : off + n ≤ srv.length := by omega
      have hrec := ih (off + n) hoff2 (by omega)
      obtain ⟨k, hk1, hrec⟩ := hrec
      refine ⟨k + 1, by omega, ?_⟩
      show (if (fetch_page srv n off).length < n then _ else _) = _
      rw [hpage, if_neg hshort, hcache, hfull]
      rw [show srv.take off ++ (srv.drop off).take n = srv.take (off + n) from
        (List.take_add srv off n).symm]
      rw [hrec]
      have hyield : ((srv.drop off).take n).map Prod.fst ++ (srv.drop (off + n)).map Prod.fst =
          (srv.drop off).map Prod.fst := by
        rw [← List.map_append, List.drop_take_append_drop]
      show some (((srv.drop off).take n).map Prod.fst ++ (srv.drop (off + n)).map Prod.fst,
        srv, srv.length, k + 1) = _
      rw [hyield]

theorem iterate_of_page_size_none (c : RemoteCatalog) (srv : List (String × Nat))
    (h : c.page_size = none) :
    iterate c srv = some ⟨c.entries.page_cache.map Prod.fst, c, 0⟩ := by
  unfold iterate
  rw [h]

theorem iterate_some_cases (c : RemoteCatalog) (srv : List (String × Nat)) (r : IterOut)
    (h : iterate c srv = some r) :
    (c.page_size = none ∧ r.cat = c) ∨
    (∃ n, c.page_size = some n ∧ r.cat.page_size = some n ∧
      r.cat.entries.complete = true ∧ r.cat.entries.lastPageShort = some true ∧
      r.cat.entries.inlineForced = c.entries.inlineForced ∧
      r.cat.entries.direct_lookup_cache = c.entries.direct_lookup_cache ∧
      r.cat.lenCached = c.lenCached) := by
  unfold iterate at h
  split at h
  next hps =>
    left
    refine ⟨hps, ?_⟩
    cases h
    rfl
  next n hps =>
    right
    split at h
    next hloop => cases h
    next ys cache2 off2 k hloop =>
      cases h
      exact ⟨n, hps, hps, rfl, rfl, rfl, rfl, rfl⟩

theorem getitemOp_frame (c : RemoteCatalog) (key : String) (sr : FetchByName) :
    (getitemOp c key sr).2.page_size = c.page_size ∧
    (getitemOp c key sr).2.lenCached = c.lenCached ∧
    (getitemOp c key sr).2.entries.page_cache = c.entries.page_cache ∧
    (getitemOp c key sr).2.entries.page_offset = c.entries.page_offset ∧
    (getitemOp c key sr).2.entries.complete = c.entries.complete ∧
    (getitemOp c key sr).2.entries.lastPageShort = c.entries.lastPageShort ∧
    (getitemOp c key sr).2.entries.inlineForced = c.entries.inlineForced := by
  cases hd : lookupAssoc c.entries.direct_lookup_cache key with
  | some v =>
    unfold getitemOp
    rw [hd]
    exact ⟨rfl, rfl, rfl, rfl, rfl, rfl, rfl⟩
  | none =>
    cases hp : lookupAssoc c.entries.page_cache key with
    | some v =>
      unfold getitemOp
      rw [hd, hp]
      exact ⟨rfl, rfl, rfl, rfl, rfl, rfl, rfl⟩
    | none =>
      cases sr with
      | found e =>
        unfold getitemOp
        rw [hd, hp]
        exact ⟨rfl, rfl, rfl, rfl, rfl, rfl, rfl⟩
      | notFound =>
        unfold getitemOp
        rw [hd, hp]
        exact ⟨rfl, rfl, rfl, rfl, rfl, rfl, rfl⟩
      | httpError st =>
        unfold getitemOp
        rw [hd, hp]
        exact ⟨rfl, rfl, rfl, rfl, rfl, rfl, rfl⟩

/-! ### The completion-sentinel invariant (claim C3)

The spec claims `complete = true` iff pagination is disabled or the last
fetched page was short/empty.  On the code this holds only outside the state
produced by an inline-ingesting `_load` (which disables pagination after the
reset recomputed `complete` against the old page size), recorded here by the
ghost flag `inlineForced`. -/

/-- The invariant that actually holds on every reachable cache state. -/
def cacheInv (c : RemoteCatalog) : Prop :=
  (c.entries.inlineForced = true → c.page_size = none ∧ c.entries.complete = false) ∧
  (c.entries.inlineForced = false →
    (c.entries.complete = true ↔ (c.page_size = none ∨ c.entries.lastPageShort = some true)))

theorem cacheInv_init (ps : Option Nat) : cacheInv (initCatalog ps) := by
  cases ps <;> simp [cacheInv, initCatalog, initEntries]

theorem cacheInv_reset (c : RemoteCatalog) : cacheInv (resetOp c) := by
  cases hps : c.page_size <;> simp [cacheInv, resetOp, initEntries, hps]

theorem cacheInv_load (c : RemoteCatalog) (resp : LoadResponse) : cacheInv (loadOp c resp) := by
  unfold loadOp
  by_cases hsrc : resp.sources.isEmpty
  · rw [if_pos hsrc]
    cases hps : c.page_size <;> simp [cacheInv, resetOp, initEntries, hps]
  · rw [if_neg hsrc]
    cases hps : c.page_size <;> simp [cacheInv, resetOp, initEntries, hps]

theorem step_cacheInv (b c : RemoteCatalog) (hs : Step b c) (hi : cacheInv b) : cacheInv c := by
  cases hs with
  | reset => exact cacheInv_reset _
  | load resp => exact cacheInv_load _ _
  | iter srv r hiter =>
    rcases iterate_some_cases b srv r hiter with ⟨hps, heq⟩ | ⟨n, hps, h1, h2, h3, h4, _, _⟩
    · rw [heq]; exact hi
    · have hforced : b.entries.inlineForced = false := by
        cases hf : b.entries.inlineForced with
        | true =>
          have := (hi.1 hf).1
          rw [hps] at this
          cases this
        | false => rfl
      constructor
      · intro hcontra
        rw [h4, hforced] at hcontra
        cases hcontra
      · intro _
        rw [h2, h3]
        simp
  | lookup key sr =>
    obtain ⟨f1, _, _, _, f5, f6, f7⟩ := getitemOp_frame b key sr
    unfold cacheInv
    rw [f1, f5, f6, f7]
    exact hi

theorem reaches_cacheInv (a s : RemoteCatalog) (h : Reaches a s) (ha : cacheInv a) :
    cacheInv s := by
  induction h with
  | refl => exact ha
  | tail b c _ hstep ih => exact step_cacheInv b c hstep ih

/-- Convenience constructor for a catalog cache state, fields in declaration
order: page size, cached length, page tier, direct tier, page offset,
complete flag, ghost last-page-short, ghost inline-forced. -/
def mkCat (ps lenc : Option Nat) (pc dlc : List (String × Nat)) (off : Nat)
    (comp : Bool) (ls : Option Bool) (inf : Bool) : RemoteCatalog :=
  ⟨ps, lenc, ⟨pc, dlc, off, comp, ls, inf⟩⟩

theorem iterate_explicit (n : Nat) (lenc : Option Nat) (pc dlc : List (String × Nat))
    (off : Nat) (comp : Bool) (ls : Option Bool) (inf : Bool) (srv : List (String × Nat)) :
    iterate (mkCat (some n) lenc pc dlc off comp ls inf) srv =
      match iterLoop srv n (srv.length + 1) pc off with
      | none => none
      | some (ys, cache2, off2, k) =>
        some ⟨pc.map Prod.fst ++ ys,
          mkCat (some n) lenc cache2 dlc off2 true (some true) inf, k⟩ := rfl

theorem iterate_fresh (srv : List (String × Nat)) (n : Nat)
    (hnd : (srv.map Prod.fst).Nodup) (hn : 0 < n) :
    ∃ k, 1 ≤ k ∧ iterate (initCatalog (some n)) srv =
      some ⟨srv.map Prod.fst,
        mkCat (some n) none srv [] srv.length true (some true) false, k⟩ := by
  obtain ⟨k, hk1, hfresh⟩ :=
    iterLoop_fresh srv n hn hnd (srv.length + 1) 0 (Nat.zero_le _) (by omega)
  rw [List.take_zero, List.drop_zero] at hfresh
  refine ⟨k, hk1, ?_⟩
  rw [show initCatalog (some n) = mkCat (some n) none [] [] 0 false none false from rfl]
  rw [iterate_explicit, hfresh]
  simp [mkCat]

theorem iterate_after_complete (n : Nat) (hn : 0 < n) (lenc : Option Nat)
    (dlc : List (String × Nat)) (comp : Bool) (ls : Option Bool) (inf : Bool)
    (srv : List (String × Nat)) :
    iterate (mkCat (some n) lenc srv dlc srv.length comp ls inf) srv =
      some ⟨srv.map Prod.fst,
        mkCat (some n) lenc srv dlc srv.length true (some true) inf, 1⟩ := by
  rw [iterate_explicit, iterLoop_at_end srv n hn srv.length srv]
  simp

theorem loadOp_inline (c : RemoteCatalog) (resp : LoadResponse)
    (hne : resp.sources.isEmpty = false) :
    loadOp c resp =
      mkCat none resp.length? (dictUpdate [] resp.sources) [] 0
        c.page_size.isNone none (!c.page_size.isNone) := by
  unfold loadOp
  rw [hne]
  rfl

theorem step_page_size_none (b c : RemoteCatalog) (hs : Step b c) (h : b.page_size = none) :
    c.page_size = none := by
  cases hs with
  | reset => exact h
  | load resp =>
    unfold loadOp
    by_cases hsrc : resp.sources.isEmpty
    · rw [hsrc]
      exact h
    · rw [Bool.not_eq_true] at hsrc
      rw [hsrc]
      rfl
  | iter srv r hiter =>
    rcases iterate_some_cases b srv r hiter with ⟨_, heq⟩ | ⟨n, hps, _⟩
    · rw [heq]; exact h
    · rw [hps] at h; cases h
  | lookup key sr =>
    rw [(getitemOp_frame b key sr).1]
    exact h

theorem reaches_page_size_none (a d : RemoteCatalog) (h : Reaches a d)
    (ha : a.page_size = none) : d.page_size = none := by
  induction h with
  | refl => exact ha
  | tail b c _ hstep ih => exact step_page_size_none b c hstep ih

/-! ## Claims C1, C2, C3, C4, C6 (cache model) -/

/-- Claim C1, counterexample.  The claim states that after one full
iteration, a second call to `iterate()` yields the identical sequence AND
issues zero additional remote page fetches.  On the code this is false:
`Entries.__iter__` never consults `complete`, so the second drain always
performs one more `fetch_page` at the stored offset (which returns an empty
page).  With three entries and page size 2, the second drain yields the same
keys but makes 1 fetch, not 0. -/
theorem c1_counterexample :
    ¬ ∀ (srv : List (String × Nat)) (n : Nat),
        (srv.map Prod.fst).Nodup → 0 < n →
        ((iterate (initCatalog (some n)) srv).bind (fun r1 =>
            (iterate r1.cat srv).map
              (fun r2 => (decide (r2.yielded = r1.yielded), r2.fetches)))) =
          some (true, 0) := by
  intro h
  have hinst := h [("a", 0), ("b", 1), ("c", 2)] 2 (by decide) (by decide)
  have hval : ((iterate (initCatalog (some 2)) [("a", 0), ("b", 1), ("c", 2)]).bind (fun r1 =>
      (iterate r1.cat [("a", 0), ("b", 1), ("c", 2)]).map
        (fun r2 => (decide (r2.yielded = r1.yielded), r2.fetches)))) = some (true, 1) := by
    decide
  rw [hval] at hinst
  exact absurd hinst (by decide)

/-- Claim C1 (amended): for a fully iterated catalog (entries with distinct
names, positive page size), a second call to `iterate()` yields the
identical, identically-ordered sequence of keys, but issues exactly ONE
additional remote page fetch (at the stored offset; it returns an empty
page), not zero. -/
theorem c1_restart_amended (srv : List (String × Nat)) (n : Nat)
    (hnd : (srv.map Prod.fst).Nodup) (hn : 0 < n) :
    (iterate (initCatalog (some n)) srv).map (fun r1 => r1.yielded) =
      some (srv.map Prod.fst) ∧
    ((iterate (initCatalog (some n)) srv).bind (fun r1 => iterate r1.cat srv)).map
        (fun r2 => (r2.yielded, r2.fetches)) = some (srv.map Prod.fst, 1) := by
  obtain ⟨k, hk1, h1⟩ := iterate_fresh srv n hnd hn
  have h2 := iterate_after_complete n hn none [] true (some true) false srv
  rw [h1]
  constructor
  · rfl
  · show Option.map (fun r2 => (r2.yielded, r2.fetches))
        (iterate (mkCat (some n) none srv [] srv.length true (some true) false) srv) =
      some (srv.map Prod.fst, 1)
    rw [h2]
    rfl

/-- Witness for C1 (amended) at the 3-entry, page-size-2 catalog. -/
theorem c1_restart_witness :
    (iterate (initCatalog (some 2)) [("a", 0), ("b", 1), ("c", 2)]).map
        (fun r1 => r1.yielded) = some ["a", "b", "c"] ∧
    ((iterate (initCatalog (some 2)) [("a", 0), ("b", 1), ("c", 2)]).bind
        (fun r1 => iterate r1.cat [("a", 0), ("b", 1), ("c", 2)])).map
        (fun r2 => (r2.yielded, r2.fetches)) = some (["a", "b", "c"], 1) :=
  c1_restart_amended [("a", 0), ("b", 1), ("c", 2)] 2 (by decide) (by decide)

/-- Claim C2: if `_load`'s response carries a non-empty inline `sources` list
while a page size was requested, pagination is forced off (`page_size`
becomes `None`) and stays off under every subsequent operation, the inline
entries are ingested directly into the page tier, and every subsequent
`iterate()` performs zero page fetches (it just replays the page tier). -/
theorem c2_inline_fallback (c : RemoteCatalog) (resp : LoadResponse) (n : Nat)
    (_hps : c.page_size = some n) (hne : resp.sources.isEmpty = false)
    (hnd : (resp.sources.map Prod.fst).Nodup) :
    (loadOp c resp).page_size = none ∧
    (loadOp c resp).entries.page_cache = resp.sources ∧
    (∀ d : RemoteCatalog, Reaches (loadOp c resp) d →
      d.page_size = none ∧
      ∀ srv : List (String × Nat),
        iterate d srv = some ⟨d.entries.page_cache.map Prod.fst, d, 0⟩) := by
  have hload := loadOp_inline c resp hne
  have hnone : (loadOp c resp).page_size = none := by rw [hload]; rfl
  refine ⟨hnone, ?_, ?_⟩
  · rw [hload]
    show dictUpdate [] resp.sources = resp.sources
    exact dictUpdate_nil_left_of_nodup resp.sources hnd
  · intro d hd
    have hdn : d.page_size = none := reaches_page_size_none _ _ hd hnone
    exact ⟨hdn, fun srv => iterate_of_page_size_none d srv hdn⟩

/-- Witness for C2: a page-size-2 catalog whose load response inlines one
entry; afterwards pagination is off, the page tier holds the entry, and an
iteration fetches nothing. -/
theorem c2_inline_fallback_witness :
    (loadOp (initCatalog (some 2)) ⟨none, [("a", 1)]⟩).page_size = none ∧
    (loadOp (initCatalog (some 2)) ⟨none, [("a", 1)]⟩).entries.page_cache = [("a", 1)] ∧
    iterate (loadOp (initCatalog (some 2)) ⟨none, [("a", 1)]⟩) [("b", 2)] =
      some ⟨["a"], loadOp (initCatalog (some 2)) ⟨none, [("a", 1)]⟩, 0⟩ := by
  have h := c2_inline_fallback (initCatalog (some 2)) ⟨none, [("a", 1)]⟩ 2 rfl
    (by decide) (by decide)
  refine ⟨h.1, h.2.1, ?_⟩
  have h3 := (h.2.2 _ (Reaches.refl _)).2 [("b", 2)]
  rw [h3, h.2.1]
  rfl

/-- Claim C3, counterexample.  The claimed invariant — `complete = true` iff
pagination is disabled or the last fetched page was short/empty — fails on
the reachable state produced by an inline-ingesting `_load`: there
`reset()` recomputes `complete` against the OLD page size before
`_page_size` is set to `None`, so pagination ends up disabled while
`complete` is still `false`. -/
theorem c3_counterexample :
    ¬ ∀ (ps : Option Nat) (s : RemoteCatalog), Reaches (initCatalog ps) s →
        (s.entries.complete = true ↔
          (s.page_size = none ∨ s.entries.lastPageShort = some true)) := by
  intro h
  have hr : Reaches (initCatalog (some 2))
      (loadOp (initCatalog (some 2)) ⟨none, [("a", 1)]⟩) :=
    Reaches.tail _ _ _ (Reaches.refl _) (Step.load _ _)
  have hiff := h (some 2) _ hr
  have hc : (loadOp (initCatalog (some 2)) ⟨none, [("a", 1)]⟩).entries.complete = true :=
    hiff.mpr (Or.inl (by decide))
  exact absurd hc (by decide)

/-- Claim C3 (amended): on every reachable cache state, `complete = true`
implies pagination is disabled or the most recently fetched page was short
or empty; the converse also holds EXCEPT in states following a load that
ingested inline sources while pagination had been requested (recorded by the
ghost flag `inlineForced`): there pagination is disabled but `complete`
remains `false` until the next reset or reload. -/
theorem c3_complete_invariant (ps : Option Nat) (s : RemoteCatalog)
    (h : Reaches (initCatalog ps) s) : cacheInv s :=
  reaches_cacheInv _ _ h (cacheInv_init ps)

/-- Witness for C3 (amended) at a freshly constructed paginating catalog. -/
theorem c3_complete_invariant_witness : cacheInv (initCatalog (some 1)) :=
  c3_complete_invariant (some 1) (initCatalog (some 1)) (Reaches.refl _)

/-- Claim C4: when the name misses both tiers and the server answers 404,
`lookup` fails with the key error for that name and the catalog state —
in particular both cache tiers — is left exactly as it was. -/
theorem c4_lookup_notFound (c : RemoteCatalog) (key : String)
    (h1 : lookupAssoc c.entries.direct_lookup_cache key = none)
    (h2 : lookupAssoc c.entries.page_cache key = none) :
    getitemOp c key FetchByName.notFound = (Except.error (LookupErr.keyError key), c) := by
  unfold getitemOp
  rw [h1, h2]

/-- Witness for C4: looking up "z" on a fresh catalog whose server answers
404. -/
theorem c4_lookup_notFound_witness :
    getitemOp (initCatalog (some 2)) "z" FetchByName.notFound =
      (Except.error (LookupErr.keyError "z"), initCatalog (some 2)) :=
  c4_lookup_notFound (initCatalog (some 2)) "z" rfl rfl

/-- Claim C6, counterexample.  The claim says the direct tier is consulted
only as a fallback after the page tier misses, so the page tier's copy is
returned once a page containing the name has been fetched.  On the code
`Entries.__getitem__` tries `_direct_lookup_cache` FIRST: in the reachable
state where "a" was point-looked-up (value 1) and later also delivered by a
page fetch (value 2), lookup returns the direct tier's 1, not the page
tier's 2. -/
theorem c6_counterexample :
    ∃ s : RemoteCatalog, Reaches (initCatalog (some 1)) s ∧
      lookupAssoc s.entries.page_cache "a" = some 2 ∧
      lookupAssoc s.entries.direct_lookup_cache "a" = some 1 ∧
      (getitemOp s "a" FetchByName.notFound).1 = Except.ok 1 ∧
      (getitemOp s "a" FetchByName.notFound).1 ≠ Except.ok 2 := by
  refine ⟨mkCat (some 1) none [("a", 2)] [("a", 1)] 1 true (some true) false,
    ?_, by decide, by decide, rfl,
    fun hcon => absurd (Except.ok.inj hcon) (by decide)⟩
  have hstep1 : Step (initCatalog (some 1))
      ((getitemOp (initCatalog (some 1)) "a" (FetchByName.found 1)).2) :=
    Step.lookup _ _ _
  have hiter : iterate ((getitemOp (initCatalog (some 1)) "a" (FetchByName.found 1)).2)
      [("a", 2)] =
      some ⟨["a"], mkCat (some 1) none [("a", 2)] [("a", 1)] 1 true (some true) false, 2⟩ := by
    decide
  exact Reaches.tail _ _ _ (Reaches.tail _ _ _ (Reaches.refl _) hstep1)
    (Step.iter _ _ _ hiter)

/-- Claim C6 (amended): `__getitem__` consults the DIRECT tier first and
returns its copy when present; the page tier is only consulted after the
direct tier misses (so for a name in both tiers the direct tier, not the
page tier, is authoritative).  In either cached case the state is
unchanged. -/
theorem c6_lookup_order_amended (c : RemoteCatalog) (key : String) (sr : FetchByName) :
    (∀ v, lookupAssoc c.entries.direct_lookup_cache key = some v →
      getitemOp c key sr = (Except.ok v, c)) ∧
    (lookupAssoc c.entries.direct_lookup_cache key = none →
      ∀ v, lookupAssoc c.entries.page_cache key = some v →
        getitemOp c key sr = (Except.ok v, c)) := by
  constructor
  · intro v hv
    unfold getitemOp
    rw [hv]
  · intro hd v hv
    unfold getitemOp
    rw [hd, hv]

/-- Witness for C6 (amended): with "a" in both tiers (direct copy 1, page
copy 2) the direct copy is returned. -/
theorem c6_lookup_order_witness :
    getitemOp (mkCat (some 1) none [("a", 2)] [("a", 1)] 1 true (some true) false)
        "a" FetchByName.notFound =
      (Except.ok 1, mkCat (some 1) none [("a", 2)] [("a", 1)] 1 true (some true) false) :=
  (c6_lookup_order_amended _ "a" FetchByName.notFound).1 1 (by decide)

/-! ## Connection state: `_get_http_args`, `_load`'s error handling, `search`
(claims C5, C7, C9, C10)

This half of the model covers the connection-facing state of `RemoteCatalog`:
the stored `http_args` dict (headers and, when present, a `params` dict), the
ephemeral `source_id`, the auth provider, and the constructor defaults.  It
is disjoint from the tier/pagination state above except for `page_size`,
which both carry. -/

/-- The auth collaborator.  `base` models the fallback `BaseClientAuth`. -/
inductive AuthModel where
  | base
  | provider (headers : List (String × String))
deriving DecidableEq

/-- Modelled from the spec: authentication is an external header-producing
capability (`auth.get_headers()`); the fallback `BaseClientAuth` (module
`intake.auth.base`, not under `src/`) contributes no headers, a custom
provider contributes its own. -/
def authHeaders : AuthModel → List (String × String)
  | AuthModel.base => []
  | AuthModel.provider hs => hs

/-- The stored `self.http_args` after `__init__`: a `headers` dict (always
present, `__init__` line 88) and optionally a `params` dict. -/
structure HttpArgs where
  headers : List (String × String)
  params : Option (List (String × String))
deriving DecidableEq

/-- The `http_args` argument as passed INTO `__init__` (before the `ssl` key
is popped and the `headers` key is defaulted). -/
structure HttpArgsIn where
  ssl : Bool
  headers : Option (List (String × String))
  params : Option (List (String × String))
deriving DecidableEq

/-- Connection-facing state of a `RemoteCatalog`. -/
structure Conn where
  url : String
  http_args : HttpArgs
  page_size : Option Nat
  source_id : Option String
  auth : AuthModel
  getenv : Bool
  getshell : Bool
  ttl : Nat
  parameters : Option (List (String × String))
  persist_mode : String
deriving DecidableEq

/-- Python `s.replace(pat, rep, 1)`: replace the first occurrence only. -/
def replFirst : List Char → List Char → List Char → List Char
  | [], _, _ => []
  | c :: cs, pat, rep =>
    if pat.isPrefixOf (c :: cs) then rep ++ (c :: cs).drop pat.length
    else c :: replFirst cs pat rep

/-- Models `url.replace('intake', scheme, 1)` on strings. -/
def pyReplaceOnce (s pat rep : String) : String :=
  ⟨replFirst s.data pat.data rep.data⟩

/-- Models `RemoteCatalog.__init__` (lines 72-100): pop `ssl` to pick the
scheme, rewrite the first `intake` of the url to the scheme, append a
trailing slash if missing, default the `headers` dict, default the auth
provider to `BaseClientAuth`, and store the remaining arguments.  (The
`storage_options` merge, `name` and `metadata` bookkeeping are not modelled;
no claim depends on them.) -/
def remoteCatalogInit (url : String) (http_args : Option HttpArgsIn)
    (page_size : Option Nat) (source_id : Option String) (auth : Option AuthModel)
    (ttl : Nat) (getenv getshell : Bool) (parameters : Option (List (String × String)))
    (persist_mode : String) : Conn :=
  let ha := match http_args with
    | none => HttpArgsIn.mk false none none
    | some h => h
  let scheme := if ha.ssl then "https" else "http"
  let url1 := pyReplaceOnce url "intake" scheme
  let url2 := if ("/").data.isSuffixOf url1.data then url1 else url1 ++ "/"
  { url := url2,
    http_args := { headers := (match ha.headers with | none => [] | some h => h),
                   params := ha.params },
    page_size := page_size,
    source_id := source_id,
    auth := (match auth with | none => AuthModel.base | some a => a),
    getenv := getenv, getshell := getshell, ttl := ttl,
    parameters := parameters, persist_mode := persist_mode }

/-- Result of `_get_http_args`: the catalog state after the call (the stored
headers dict was updated IN PLACE, and so was the stored params dict when
one exists) plus the headers/params sent with this request. -/
structure HttpOut where
  conn : Conn
  reqHeaders : List (String × String)
  reqParams : List (String × String)
deriving DecidableEq

/-- Models `RemoteCatalog._get_http_args` (lines 188-210).  `headers` is the
STORED dict: `headers.update(auth_headers)` and the `source-id` store mutate
it in place; `http_args.copy()` is shallow, so `merged_params.update(params)`
mutates the stored `params` dict in place when the stored `http_args` has
one (when it has none, the request gets a fresh dict and the stored state
keeps no `params` key). -/
def get_http_args (c : Conn) (params : List (String × String)) : HttpOut :=
  let headers1 := dictUpdate c.http_args.headers (authHeaders c.auth)
  let headers2 := match c.source_id with
    | none => headers1
    | some sid => dictUpdate headers1 [("source-id", sid)]
  let storedParams := match c.http_args.params with
    | none => none
    | some p => some (dictUpdate p params)
  let reqParams := match c.http_args.params with
    | none => dictUpdate [] params
    | some p => dictUpdate p params
  { conn := { c with http_args := { headers := headers2, params := storedParams } },
    reqHeaders := headers2,
    reqParams := reqParams }

/-- Request arguments of `fetch_by_name` (line 167): `params = {'name': name}`. -/
def fetch_by_nameArgs (c : Conn) (name : String) : HttpOut :=
  get_http_args c [("name", name)]

/-- Request arguments of `fetch_page` (lines 135-137). -/
def fetch_pageArgs (c : Conn) (page_offset n : Nat) : HttpOut :=
  get_http_args c [("page_offset", toString page_offset), ("page_size", toString n)]

/-- Errors raised by `_load`. -/
inductive LoadErr where
  | authenticationFailure (msg : String)
  | remoteCatalogError (msg : String)
deriving DecidableEq

/-- The user-facing message of `_load`'s `AuthenticationFailure`. -/
def authFailureMsg : String := "Your current level of authentication does not have access"

/-- Models the message of the `requests.HTTPError` raised by
`response.raise_for_status()` for a 4xx/5xx response (`err.args[0]`): the
status code, "Client"/"Server" by status range, the reason text and the
response URL, in the underlying HTTP library's documented format. -/
def httpErrorArgs0 (status : Nat) (reason url : String) : String :=
  toString status ++ (if status < 500 then " Client Error: " else " Server Error: ") ++
    reason ++ " for url: " ++ url

/-- Python's substring test `needle in hay`. -/
def strContains (hay needle : String) : Bool :=
  (List.range (hay.data.length + 1)).any (fun i => needle.data.isPrefixOf (hay.data.drop i))

/-- Outcome of the status-handling part of `_load` (lines 212-238): the
error raised if any, the connection state after the call (note
`_get_http_args` already ran, mutating the stored headers/params), and the
headers/params the metadata request carried. -/
structure LoadOut where
  err : Option LoadErr
  conn : Conn
  reqHeaders : List (String × String)
  reqParams : List (String × String)
deriving DecidableEq

/-- The query params `_load` requests: `{}` when unpaginated, metadata-only
`{page_offset: 0, page_size: 0}` when paginating (lines 220-225). -/
def loadParams (c : Conn) : List (String × String) :=
  match c.page_size with
  | none => []
  | some _ => [("page_offset", "0"), ("page_size", "0")]

/-- Models `RemoteCatalog._load` up to (and including) its error handling:
build the params, call `_get_http_args`, issue the GET;
`raise_for_status()` raises exactly for status >= 400; the handler raises
`AuthenticationFailure` when the HTTPError's message contains the substring
"403" and a `RemoteCatalogError` chained from the transport error
otherwise.  (The success path — metadata, length, cache reset, inline
ingest — lives in the cache model's `loadOp`.) -/
def connLoad (c : Conn) (status : Nat) (reason respUrl : String) : LoadOut :=
  { err :=
      if 400 ≤ status then
        if strContains (httpErrorArgs0 status reason respUrl) "403" then
          some (LoadErr.authenticationFailure authFailureMsg)
        else some (LoadErr.remoteCatalogError "Failed to fetch metadata.")
      else none,
    conn := (get_http_args c (loadParams c)).conn,
    reqHeaders := (get_http_args c (loadParams c)).reqHeaders,
    reqParams := (get_http_args c (loadParams c)).reqParams }

/-- Error raised by `search` on a non-ok response. -/
inductive SearchErr where
  | remoteCatalogError (msg : String)
deriving DecidableEq

/-- Models `RemoteCatalog.search` (lines 262-282): POST via
`_get_http_args({})`; on status >= 400 raise `RemoteCatalogError`; otherwise
build a NEW `RemoteCatalog` passing ONLY `url`, `http_args`, the
server-returned `source_id` and `persist_mode` (plus `name=""`), so every
other constructor argument takes its default.  Returns (error if any,
parent state after the call, the new catalog if any). -/
def search (c : Conn) (status : Nat) (resp_source_id : String) :
    Option SearchErr × Conn × Option Conn :=
  ((if 400 ≤ status then some (SearchErr.remoteCatalogError "Failed search query.")
    else none),
   (get_http_args c []).conn,
   (if 400 ≤ status then none
    else
      some (remoteCatalogInit (get_http_args c []).conn.url
        (some (HttpArgsIn.mk false (some (get_http_args c []).conn.http_args.headers)
          (get_http_args c []).conn.http_args.params))
        none (some resp_source_id) none 1 true true none
        (get_http_args c []).conn.persist_mode)))

/-! ### Behaviour of `_get_http_args` and `_load`'s error branch -/

theorem get_http_args_headers_of_source_id (c : Conn) (params : List (String × String))
    (sid : String) (h : c.source_id = some sid) :
    (get_http_args c params).conn.http_args.headers =
      dictInsert (dictUpdate c.http_args.headers (authHeaders c.auth)) ("source-id", sid) := by
  unfold get_http_args
  rw [h]
  rfl

theorem get_http_args_headers_of_no_source_id (c : Conn) (params : List (String × String))
    (h : c.source_id = none) :
    (get_http_args c params).conn.http_args.headers =
      dictUpdate c.http_args.headers (authHeaders c.auth) := by
  unfold get_http_args
  rw [h]

theorem get_http_args_reqHeaders_eq (c : Conn) (params : List (String × String)) :
    (get_http_args c params).reqHeaders = (get_http_args c params).conn.http_args.headers := rfl

theorem reqHeaders_source_id (c : Conn) (params : List (String × String)) (sid : String)
    (h : c.source_id = some sid) :
    lookupAssoc (get_http_args c params).reqHeaders "source-id" = some sid := by
  rw [get_http_args_reqHeaders_eq, get_http_args_headers_of_source_id c params sid h,
    lookupAssoc_dictInsert, if_pos rfl]

theorem get_http_args_conn_params (c : Conn) (params q : List (String × String))
    (h : c.http_args.params = some q) :
    (get_http_args c params).conn.http_args.params = some (dictUpdate q params) := by
  unfold get_http_args
  rw [h]

theorem get_http_args_reqParams_eq (c : Conn) (params q : List (String × String))
    (h : c.http_args.params = some q) :
    (get_http_args c params).reqParams = dictUpdate q params := by
  unfold get_http_args
  rw [h]

theorem connLoad_err_eq (c : Conn) (status : Nat) (reason respUrl : String) :
    (connLoad c status reason respUrl).err =
      if 400 ≤ status then
        if strContains (httpErrorArgs0 status reason respUrl) "403" then
          some (LoadErr.authenticationFailure authFailureMsg)
        else some (LoadErr.remoteCatalogError "Failed to fetch metadata.")
      else none := rfl

theorem connLoad_reqHeaders_eq (c : Conn) (status : Nat) (reason respUrl : String) :
    (connLoad c status reason respUrl).reqHeaders =
      (get_http_args c (loadParams c)).reqHeaders := rfl

theorem stringData_append (a b : String) : (a ++ b).data = a.data ++ b.data := rfl

theorem isPrefixOf_append_left (l t : List Char) : l.isPrefixOf (l ++ t) = true := by
  induction l with
  | nil => simp [List.isPrefixOf]
  | cons c cs ih => simp [List.isPrefixOf, ih]

theorem strContains_of_prefix (hay needle : String)
    (h : needle.data.isPrefixOf hay.data = true) : strContains hay needle = true := by
  unfold strContains
  apply List.any_eq_true.mpr
  exact ⟨0, List.mem_range.mpr (Nat.succ_pos _), by rw [List.drop_zero]; exact h⟩

theorem httpError403_contains (reason url : String) :
    strContains (httpErrorArgs0 403 reason url) "403" = true := by
  apply strContains_of_prefix
  have hd : (httpErrorArgs0 403 reason url).data =
      ("403").data ++ (" Client Error: " ++ (reason ++ (" for url: " ++ url))).data := by
    unfold httpErrorArgs0
    rw [if_pos (by omega : (403 : Nat) < 500)]
    rw [show toString (403 : Nat) = "403" from rfl]
    simp [stringData_append, List.append_assoc]
  rw [hd]
  exact isPrefixOf_append_left _ _

/-! ## Claims C5, C7, C9, C10 (connection model) -/

/-- Claim C5, counterexample.  The claim says `_load` fails with
`AuthenticationFailure` exactly on an HTTP-403-equivalent response and with
`RemoteCatalogError` on every other non-2xx.  The code instead tests
`'403' in err.args[0]` — a substring check on the transport error MESSAGE,
which also contains the request URL.  A 404 response for a URL containing
"403" therefore raises `AuthenticationFailure`, not `RemoteCatalogError`. -/
theorem c5_counterexample :
    ¬ ∀ (c : Conn) (status : Nat) (reason respUrl : String),
        ¬ (200 ≤ status ∧ status < 300) →
        (((connLoad c status reason respUrl).err =
            some (LoadErr.authenticationFailure authFailureMsg)) ↔ status = 403) ∧
        (status ≠ 403 →
          (connLoad c status reason respUrl).err =
            some (LoadErr.remoteCatalogError "Failed to fetch metadata.")) := by
  intro h
  have hinst := (h (remoteCatalogInit "intake://h" none none none none 1 true true none
      "default") 404 "Not Found" "http://example.org/403/data" (by omega)).2 (by omega)
  have hval : (connLoad (remoteCatalogInit "intake://h" none none none none 1 true true none
      "default") 404 "Not Found" "http://example.org/403/data").err =
      some (LoadErr.authenticationFailure authFailureMsg) := by decide
  rw [hval] at hinst
  exact absurd hinst (by decide)

/-- Claim C5 (amended): `_load` treats exactly the statuses >= 400 as errors
(3xx responses are not errors); among those it raises
`AuthenticationFailure` with the user-facing message precisely when the
transport error message (status, reason and URL) contains the substring
"403" — which is always the case for a true 403 response — and otherwise
raises `RemoteCatalogError` wrapping the transport error. -/
theorem c5_load_errors_amended (c : Conn) (status : Nat) (reason respUrl : String) :
    (status < 400 → (connLoad c status reason respUrl).err = none) ∧
    (400 ≤ status →
      (strContains (httpErrorArgs0 status reason respUrl) "403" = true →
        (connLoad c status reason respUrl).err =
          some (LoadErr.authenticationFailure authFailureMsg)) ∧
      (strContains (httpErrorArgs0 status reason respUrl) "403" = false →
        (connLoad c status reason respUrl).err =
          some (LoadErr.remoteCatalogError "Failed to fetch metadata."))) ∧
    (status = 403 → (connLoad c status reason respUrl).err =
      some (LoadErr.authenticationFailure authFailureMsg)) := by
  refine ⟨?_, ?_, ?_⟩
  · intro h
    rw [connLoad_err_eq, if_neg (by omega)]
  · intro h
    constructor
    · intro h2
      rw [connLoad_err_eq, if_pos h, if_pos h2]
    · intro h2
      rw [connLoad_err_eq, if_pos h, if_neg (by rw [h2]; exact Bool.false_ne_true)]
  · intro h
    subst h
    rw [connLoad_err_eq, if_pos (by omega), if_pos (httpError403_contains reason respUrl)]

/-- Witness for C5 (amended): a 403 yields `AuthenticationFailure`, a 200
no error, and a 500 (whose message contains no "403") a
`RemoteCatalogError`. -/
theorem c5_load_errors_witness :
    (connLoad (remoteCatalogInit "intake://h" none none none none 1 true true none "default")
        403 "Forbidden" "http://h/").err =
      some (LoadErr.authenticationFailure authFailureMsg) ∧
    (connLoad (remoteCatalogInit "intake://h" none none none none 1 true true none "default")
        200 "OK" "http://h/").err = none ∧
    (connLoad (remoteCatalogInit "intake://h" none none none none 1 true true none "default")
        500 "Internal Server Error" "http://h/").err =
      some (LoadErr.remoteCatalogError "Failed to fetch metadata.") :=
  ⟨(c5_load_errors_amended _ 403 "Forbidden" "http://h/").2.2 rfl,
   (c5_load_errors_amended _ 200 "OK" "http://h/").1 (by omega),
   ((c5_load_errors_amended _ 500 "Internal Server Error" "http://h/").2.1 (by omega)).2
     (by decide)⟩

/-- Claim C7: on a 2xx search response, `search` returns a new catalog bound
to the server-returned scope id, and every subsequent request that catalog
makes through `_get_http_args` — in particular `_load`'s metadata request —
carries that scope id in its `source-id` header (and the scope id survives
the call). -/
theorem c7_search_scope (c : Conn) (status : Nat) (sid : String) (h2xx : status < 400) :
    ∃ c1 newCat : Conn, search c status sid = (none, c1, some newCat) ∧
      newCat.source_id = some sid ∧
      (∀ params : List (String × String),
        lookupAssoc (get_http_args newCat params).reqHeaders "source-id" = some sid ∧
        (get_http_args newCat params).conn.source_id = some sid) ∧
      (∀ st : Nat, ∀ reason respUrl : String,
        lookupAssoc (connLoad newCat st reason respUrl).reqHeaders "source-id" = some sid) := by
  refine ⟨(get_http_args c []).conn,
    remoteCatalogInit (get_http_args c []).conn.url
      (some (HttpArgsIn.mk false (some (get_http_args c []).conn.http_args.headers)
        (get_http_args c []).conn.http_args.params))
      none (some sid) none 1 true true none (get_http_args c []).conn.persist_mode,
    ?_, rfl, ?_, ?_⟩
  · unfold search
    rw [if_neg (by omega), if_neg (by omega)]
  · intro params
    exact ⟨reqHeaders_source_id _ params sid rfl, rfl⟩
  · intro st reason respUrl
    rw [connLoad_reqHeaders_eq]
    exact reqHeaders_source_id _ _ sid rfl

/-- Witness for C7: a concrete searched catalog carries its scope id in the
headers of a subsequent load request. -/
theorem c7_search_scope_witness :
    ((search (remoteCatalogInit "intake://h" none none none none 1 true true none "default")
        200 "scope-1").2.2.map (fun n => n.source_id)) = some (some "scope-1") ∧
    ((search (remoteCatalogInit "intake://h" none none none none 1 true true none "default")
        200 "scope-1").2.2.map (fun n =>
          lookupAssoc (connLoad n 200 "OK" "http://h/").reqHeaders "source-id")) =
      some (some "scope-1") := by
  obtain ⟨c1, newCat, hs, hsid, _, hload⟩ :=
    c7_search_scope (remoteCatalogInit "intake://h" none none none none 1 true true none
      "default") 200 "scope-1" (by omega)
  rw [hs]
  exact ⟨by simp [hsid], by simp [hload 200 "OK" "http://h/"]⟩

/-- Claim C9: `_get_http_args` is not frame-preserving on the stored
connection state.  It writes the auth headers and (when a scope id is
bound) the `source-id` header into the STORED headers dict in place, and
when the stored `http_args` holds a `params` dict it merges the per-call
query params (e.g. `{'name': ...}` from `fetch_by_name`) into that shared
dict — so an unrelated later request still carries them. -/
theorem c9_get_http_args_frame (c : Conn) (params params2 p : List (String × String))
    (hp : c.http_args.params = some p)
    (hnp : (params.map Prod.fst).Nodup)
    (hna : ((authHeaders c.auth).map Prod.fst).Nodup) :
    (get_http_args c params).conn.http_args.params = some (dictUpdate p params) ∧
    (∀ sid, c.source_id = some sid →
      lookupAssoc (get_http_args c params).conn.http_args.headers "source-id" = some sid) ∧
    (∀ hk hv, lookupAssoc (authHeaders c.auth) hk = some hv → hk ≠ "source-id" →
      lookupAssoc (get_http_args c params).conn.http_args.headers hk = some hv) ∧
    (∀ k v, lookupAssoc params k = some v → lookupAssoc params2 k = none →
      lookupAssoc (get_http_args (get_http_args c params).conn params2).reqParams k = some v) ∧
    (∀ nm : String, lookupAssoc params2 "name" = none →
      lookupAssoc (get_http_args (fetch_by_nameArgs c nm).conn params2).reqParams "name" =
        some nm) := by
  refine ⟨get_http_args_conn_params c params p hp, ?_, ?_, ?_, ?_⟩
  · intro sid hsid
    rw [get_http_args_headers_of_source_id c params sid hsid, lookupAssoc_dictInsert,
      if_pos rfl]
  · intro hk hv hlk hne
    cases hcase : c.source_id with
    | none =>
      rw [get_http_args_headers_of_no_source_id c params hcase]
      exact lookupAssoc_dictUpdate_of_some _ _ _ _ hna hlk
    | some sid =>
      rw [get_http_args_headers_of_source_id c params sid hcase, lookupAssoc_dictInsert,
        if_neg hne]
      exact lookupAssoc_dictUpdate_of_some _ _ _ _ hna hlk
  · intro k v hk hk2
    rw [get_http_args_reqParams_eq _ params2 (dictUpdate p params)
      (get_http_args_conn_params c params p hp)]
    rw [lookupAssoc_dictUpdate_of_none params2 _ _ hk2]
    exact lookupAssoc_dictUpdate_of_some _ _ _ _ hnp hk
  · intro nm h2
    rw [show fetch_by_nameArgs c nm = get_http_args c [("name", nm)] from rfl]
    rw [get_http_args_reqParams_eq _ params2 (dictUpdate p [("name", nm)])
      (get_http_args_conn_params c [("name", nm)] p hp)]
    rw [lookupAssoc_dictUpdate_of_none params2 _ _ h2]
    rw [show dictUpdate p [("name", nm)] = dictInsert p ("name", nm) from rfl,
      lookupAssoc_dictInsert, if_pos rfl]

/-- Witness for C9: a catalog whose stored `http_args` holds a `params`
dict; after a `fetch_by_name("nm")` the stored params carry `name`, and a
later unrelated request still sends it. -/
theorem c9_get_http_args_frame_witness :
    (get_http_args (remoteCatalogInit "intake://h"
        (some (HttpArgsIn.mk false none (some [("q", "1")])))
        none none none 1 true true none "default") [("x", "2")]).conn.http_args.params =
      some [("q", "1"), ("x", "2")] ∧
    lookupAssoc (get_http_args (fetch_by_nameArgs (remoteCatalogInit "intake://h"
        (some (HttpArgsIn.mk false none (some [("q", "1")])))
        none none none 1 true true none "default") "nm").conn []).reqParams "name" =
      some "nm" := by
  have h := c9_get_http_args_frame (remoteCatalogInit "intake://h"
    (some (HttpArgsIn.mk false none (some [("q", "1")])))
    none none none 1 true true none "default") [("x", "2")] [] [("q", "1")]
    rfl (by decide) (by decide)
  refine ⟨?_, h.2.2.2.2 "nm" rfl⟩
  rw [h.1]
  decide

/-- Claim C10: the scoped catalog returned by `search` is built passing only
`url`, `http_args`, the new `source_id` and `persist_mode`; every other
constructor argument takes its default, so regardless of the parent's
settings the new catalog uses the default auth provider, unpaginated
fetching (`page_size = None`), default `getenv`/`getshell`, default `ttl`
and no parameters. -/
theorem c10_search_defaults (c : Conn) (status : Nat) (sid : String) (h2xx : status < 400) :
    ∃ c1 newCat : Conn, search c status sid = (none, c1, some newCat) ∧
      newCat.auth = AuthModel.base ∧ newCat.page_size = none ∧
      newCat.getenv = true ∧ newCat.getshell = true ∧ newCat.ttl = 1 ∧
      newCat.parameters = none ∧ newCat.source_id = some sid ∧
      newCat.persist_mode = c.persist_mode := by
  refine ⟨(get_http_args c []).conn,
    remoteCatalogInit (get_http_args c []).conn.url
      (some (HttpArgsIn.mk false (some (get_http_args c []).conn.http_args.headers)
        (get_http_args c []).conn.http_args.params))
      none (some sid) none 1 true true none (get_http_args c []).conn.persist_mode,
    ?_, rfl, rfl, rfl, rfl, rfl, rfl, rfl, rfl⟩
  unfold search
  rw [if_neg (by omega), if_neg (by omega)]

/-- Witness for C10: the searched catalog of a parent with a custom auth
provider, page size 7 and flags off still gets all the defaults. -/
theorem c10_search_defaults_witness :
    ((search (remoteCatalogInit "intake://h" none (some 7) none
        (some (AuthModel.provider [("k", "v")])) 9 false false none "always")
        200 "scope-2").2.2.map (fun n =>
          (n.auth, n.page_size, n.getenv, n.getshell, n.ttl, n.parameters, n.source_id,
            n.persist_mode))) =
      some (AuthModel.base, none, true, true, 1, none, some "scope-2", "always") := by
  obtain ⟨c1, newCat, hs, h1, h2, h3, h4, h5, h6, h7, h8⟩ :=
    c10_search_defaults (remoteCatalogInit "intake://h" none (some 7) none
      (some (AuthModel.provider [("k", "v")])) 9 false false none "always")
      200 "scope-2" (by omega)
  rw [hs]
  have h8' : newCat.persist_mode = "always" := h8
  simp [h1, h2, h3, h4, h5, h6, h7, h8']

/-! ## Entry resolution: `open_remote` (claim C8) -/

/-- The decoded body of the server's response to an `open` POST: an optional
plugin list (a bare string is normalised to a one-element list), the
constructor arguments for direct access, and the `container` field a proxy
response carries. -/
structure OpenResponse where
  plugin : Option (List String)
  args : List (String × String)
  container : String
deriving DecidableEq

/-- The two-variant result of resolution: a locally instantiated direct
source, or a proxy handle that keeps talking to the server. -/
inductive OpenResult where
  | direct (plugin : String) (args : List (String × String))
  | proxy (container : String) (name : String) (parameters : List (String × String))
deriving DecidableEq

/-- Models `open_remote` (lines 470-519): POST the open request; `req.ok`
means status < 400, and only then is the response processed — the first
advertised plugin present in the local registry wins (direct access),
otherwise a proxy source for the entry's container is built.  On
`not req.ok` raise `Exception('Server error: %d, %s' % (status, reason))`;
there is no retry. -/
def open_remote (entry : String) (user_parameters : List (String × String))
    (container : String) (registry : List String) (status : Nat) (reason : String)
    (resp : OpenResponse) : Except String OpenResult :=
  if status < 400 then
    Except.ok (match resp.plugin with
      | some pl =>
        match pl.find? (fun p => registry.contains p) with
        | some p => OpenResult.direct p resp.args
        | none => OpenResult.proxy container entry user_parameters
      | none => OpenResult.proxy container entry user_parameters)
  else
    Except.error ("Server error: " ++ toString status ++ ", " ++ reason)

/-- Claim C8, counterexample.  The claim says ANY non-2xx response makes the
resolution fail.  The code gates on `req.ok`, which is status < 400, so a
3xx response (e.g. 304 Not Modified) is processed as a success: here it
resolves to a direct source instead of failing. -/
theorem c8_counterexample :
    ¬ (200 ≤ 304 ∧ 304 < 300) ∧
    open_remote "e" [] "dataframe" ["csv"] 304 "Not Modified"
        (OpenResponse.mk (some ["csv"]) [] "dataframe") =
      Except.ok (OpenResult.direct "csv" []) := by
  exact ⟨by omega, rfl⟩

/-- Claim C8 (amended): every response with status >= 400 (and only those)
makes the resolution attempt fail, without retry, with the generic server
error carrying the status code and reason text; 3xx responses are treated
as success. -/
theorem c8_open_remote_amended (entry : String) (ups : List (String × String))
    (container : String) (registry : List String) (status : Nat) (reason : String)
    (resp : OpenResponse) (h : 400 ≤ status) :
    open_remote entry ups container registry status reason resp =
      Except.error ("Server error: " ++ toString status ++ ", " ++ reason) := by
  unfold open_remote
  rw [if_neg (by omega)]

/-- Witness for C8 (amended): a 404 on the open call. -/
theorem c8_open_remote_witness :
    open_remote "e" [] "dataframe" ["csv"] 404 "Not Found"
        (OpenResponse.mk (some ["csv"]) [] "dataframe") =
      Except.error ("Server error: " ++ toString 404 ++ ", " ++ "Not Found") :=
  c8_open_remote_amended "e" [] "dataframe" ["csv"] 404 "Not Found"
    (OpenResponse.mk (some ["csv"]) [] "dataframe") (by omega)

end Intake
